import Mathlib

/-!
Verification of the congressional-trading backtest/strategy core.

The definitions below are a shallow embedding of the Python source:
`src/backtest/metrics.py`, `src/backtest/engine.py`, `src/backtest/strategies.py`,
`src/strategy/risk_manager.py`, `src/strategy/signal_generator.py`.
Python floats are embedded as exact rationals (ℚ); the only irrational
operation in the core (`np.sqrt` inside the Sharpe ratio) is embedded with
`Real.sqrt`.  Python `dict` results whose key sets differ between branches are
embedded as structures with `Option` fields: `none` means the key is absent
from the returned dict.  Log statements are observational and elided.
-/

/-! ## Numeric helpers (shared by the metrics calculator) -/

/-- Sum of a list of rationals, `sum(xs)` in Python. -/
def qsum (l : List ℚ) : ℚ := l.sum

/-- `np.mean(xs)`: sum divided by length (only used on nonempty lists in the
source; on `[]` Lean's total division yields 0). -/
def qmean (l : List ℚ) : ℚ := l.sum / (l.length : ℚ)

/-- `np.std(xs, ddof=1) ** 2`: the Bessel-corrected sample variance.  The
source only evaluates this on lists of length ≥ 2. -/
def sampleVar (l : List ℚ) : ℚ :=
  ((l.map (fun x => (x - qmean l) ^ 2)).sum) / ((l.length - 1 : ℕ) : ℚ)

/-- `np.cumsum(xs)`: running cumulative sums. -/
def cumsum (l : List ℚ) : List ℚ := (l.scanl (· + ·) 0).tail

/-- `np.maximum.accumulate(xs)`: running maxima. -/
def runningMax : List ℚ → List ℚ
  | [] => []
  | x :: xs => xs.scanl max x

/-- `max(xs)` on a nonempty list (the source guards every use by nonemptiness;
`[]` maps to the 0 the guarded branches return). -/
def listMax : List ℚ → ℚ
  | [] => 0
  | x :: xs => xs.foldl max x

/-- `min(xs)` on a nonempty list, with the same convention as `listMax`. -/
def listMin : List ℚ → ℚ
  | [] => 0
  | x :: xs => xs.foldl min x

/-! ## `src/backtest/metrics.py` -/

/-- The value stored under the `profit_factor` key: either a finite ratio or
the `float('inf')` sentinel the source uses when there are no losses. -/
inductive ProfitFactor where
  | finite (q : ℚ)
  | posInf
deriving DecidableEq

/-- The dict returned by `calculate_metrics`.  The `Option` fields model keys
that the two degenerate branches of the source omit: `none` = key absent. -/
structure Metrics where
  total_trades : ℕ
  total_return : ℚ
  avg_return : ℚ
  win_rate : ℚ
  sharpe_ratio : ℝ
  max_drawdown : ℚ
  best_trade : ℚ
  worst_trade : ℚ
  profit_factor : Option ProfitFactor
  avg_win : Option ℚ
  avg_loss : Option ℚ
  total_wins : Option ℕ
  total_losses : Option ℕ

/-- The Sharpe-ratio expression of `calculate_metrics`: annualized by
`sqrt(252)`, guarded to 0 when fewer than 2 samples or zero standard
deviation (`std_dev = np.std(returns, ddof=1)`). -/
noncomputable def sharpe_of (returns : List ℚ) : ℝ :=
  if 1 < returns.length then
    if 0 < Real.sqrt ((sampleVar returns : ℚ) : ℝ) then
      ((qmean returns : ℚ) : ℝ) / Real.sqrt ((sampleVar returns : ℚ) : ℝ) * Real.sqrt 252
    else 0
  else 0

/-- `calculate_metrics(results)`.  The input is the list of `return_pct`
values of the result dicts (`none` models a result whose `return_pct` is
`None`; no other key of a result dict is read by this function). -/
noncomputable def calculate_metrics (results : List (Option ℚ)) : Metrics :=
  if results.isEmpty then
    ⟨0, 0, 0, 0, 0, 0, 0, 0, none, none, none, none, none⟩
  else
    let returns := results.filterMap id
    if returns.isEmpty then
      ⟨results.length, 0, 0, 0, 0, 0, 0, 0, none, none, none, none, none⟩
    else
      let total_trades := returns.length
      let total_return := qsum returns
      let avg_return := qmean returns
      let wins := returns.filter (fun r => 0 < r)
      let win_rate := if 0 < total_trades then (wins.length : ℚ) / (total_trades : ℚ) else 0
      let cums := cumsum returns
      let runmax := runningMax cums
      let drawdown := List.zipWith (fun a b => a - b) runmax cums
      let max_drawdown := if 0 < drawdown.length then listMax drawdown else 0
      let gross_profit := qsum (returns.filter (fun r => 0 < r))
      let gross_loss := |qsum (returns.filter (fun r => r < 0))|
      let profit_factor :=
        if 0 < gross_loss then ProfitFactor.finite (gross_profit / gross_loss)
        else ProfitFactor.posInf
      let losses := returns.filter (fun r => r < 0)
      let avg_win := if wins.isEmpty then 0 else qmean wins
      let avg_loss := if losses.isEmpty then 0 else qmean losses
      ⟨total_trades, total_return, avg_return, win_rate, sharpe_of returns,
       max_drawdown, listMax returns, listMin returns, some profit_factor,
       some avg_win, some avg_loss, some wins.length, some losses.length⟩

example : (calculate_metrics []).profit_factor = none := by
  simp [calculate_metrics]

example : (calculate_metrics [some 0]).profit_factor = some ProfitFactor.posInf := by
  decide

/-! ## Data model (`src/data/database.py`, fields read by the core) -/

/-- A disclosed congressional trade.  Dates are embedded as day numbers (ℤ);
`estimated_amount` is a nullable float column, hence `Option ℚ`. -/
structure CongressionalTrade where
  ticker : String
  politician_name : String
  transaction_type : String
  estimated_amount : Option ℚ
  transaction_date : ℤ
  disclosure_date : ℤ
deriving DecidableEq

/-- An open position (`Position` model): the fields `should_exit_position`
reads. -/
structure Position where
  ticker : String
  quantity : ℚ
  average_entry_price : ℚ
deriving DecidableEq

/-! ## `src/strategy/risk_manager.py` -/

/-- `RiskConfig` dataclass with its source defaults. -/
structure RiskConfig where
  profit_threshold : ℚ := 0.20
  stop_loss : ℚ := -0.10
  max_position_size : ℚ := 0.05
  max_positions : ℕ := 10
  min_position_value : ℚ := 1000
deriving DecidableEq

/-- The `RiskConfig(...)` dataclass constructor.  A Python constructor can
reject its arguments only by raising; the generated `__init__` contains no
check and no `raise`, which the `Except` result makes explicit: it returns
`.ok` (plain field assignment) on every input. -/
def RiskConfig.make (pt sl mps : ℚ) (mp : ℕ) (mpv : ℚ) : Except String RiskConfig :=
  .ok ⟨pt, sl, mps, mp, mpv⟩

/-- `RiskManager.__init__` with an explicit config: stores the config
unchanged (the config-file branch is not taken) and performs no validation,
hence always `.ok`.  The manager's entire state is its config. -/
def RiskManager.make (config : RiskConfig) : Except String RiskConfig :=
  .ok config

/-- The exit reason returned by `should_exit_position`.  In the source it is
an f-string: `profitTarget` renders as `"{...:.0%} profit threshold reached"`
(contains "profit"), `stopLoss` as `"Stop loss triggered at {...:.2%}"`
(contains "stop loss" up to case, as the repository's own tests check via
`.lower()`); the interpolated numbers are elided here. -/
inductive ExitReason where
  | profitTarget
  | stopLoss
deriving DecidableEq

/-- `RiskManager.should_exit_position(position, current_price)`. -/
def should_exit_position (config : RiskConfig) (position : Position)
    (current_price : ℚ) : Bool × Option ExitReason :=
  let profit_pct :=
    (current_price - position.average_entry_price) / position.average_entry_price
  if config.profit_threshold ≤ profit_pct then (true, some .profitTarget)
  else if profit_pct ≤ config.stop_loss then (true, some .stopLoss)
  else (false, none)

/-- Python `int(q)` on a float: truncation toward zero. -/
def pyInt (q : ℚ) : ℤ := if 0 ≤ q then ⌊q⌋ else -⌊-q⌋

/-- `RiskManager.calculate_position_size(account_balance, stock_price,
current_positions_count)`. -/
def calculate_position_size (config : RiskConfig) (account_balance stock_price : ℚ)
    (current_positions_count : ℕ) : ℤ :=
  if config.max_positions ≤ current_positions_count then 0
  else
    let max_dollars := account_balance * config.max_position_size
    if max_dollars < config.min_position_value then 0
    else
      let shares := pyInt (max_dollars / stock_price)
      if shares < 1 then 0 else shares

example : calculate_position_size {} 100000 100 0 = 50 := by
  norm_num [calculate_position_size, pyInt]
example : calculate_position_size {} 100000 100 10 = 0 := by
  norm_num [calculate_position_size]

/-! ## `src/strategy/signal_generator.py` -/

/-- The `Signal` enum. -/
inductive Signal where
  | BUY
  | SELL
  | HOLD
deriving DecidableEq

/-- The `TradeSignal` dataclass.  The human-readable `reason` f-string is
elided (no claim concerns it). -/
structure TradeSignal where
  ticker : String
  signal : Signal
  confidence : ℚ
  supporting_trades : List CongressionalTrade
  conflicting_trades : List CongressionalTrade
deriving DecidableEq

/-- `t.estimated_amount` as read by `sum(...)` in the fusion methods.  The
source raises `TypeError` on a `None` amount; theorems therefore hypothesize
non-null amounts, under which `getD 0` is exact. -/
def amountOf (t : CongressionalTrade) : ℚ := t.estimated_amount.getD 0

/-- `sum(t.estimated_amount for t in trades)`. -/
def dollarWeight (trades : List CongressionalTrade) : ℚ := (trades.map amountOf).sum

/-- `SignalGenerator._analyze_dollar_weighted(buys, sells, ticker)`;
`mult` is `self.buy_threshold_multiplier` (config default 1.5). -/
def analyze_dollar_weighted (mult : ℚ) (buys sells : List CongressionalTrade)
    (ticker : String) : TradeSignal :=
  let buy_weight := dollarWeight buys
  let sell_weight := dollarWeight sells
  let total_weight := buy_weight + sell_weight
  if total_weight = 0 then
    ⟨ticker, .HOLD, 0, [], []⟩
  else if sell_weight * mult < buy_weight then
    ⟨ticker, .BUY, min (buy_weight / (buy_weight + sell_weight)) 1, buys, sells⟩
  else if buy_weight * mult < sell_weight then
    ⟨ticker, .SELL, min (sell_weight / (buy_weight + sell_weight)) 1, sells, buys⟩
  else
    ⟨ticker, .HOLD, 0, [], buys ++ sells⟩

/-- `SignalGenerator._analyze_unanimous_only(buys, sells, ticker)`. -/
def analyze_unanimous_only (buys sells : List CongressionalTrade)
    (ticker : String) : TradeSignal :=
  if ¬buys.isEmpty ∧ sells.isEmpty then
    ⟨ticker, .BUY, min ((buys.length : ℚ) / 10) 1, buys, []⟩
  else if ¬sells.isEmpty ∧ buys.isEmpty then
    ⟨ticker, .SELL, min ((sells.length : ℚ) / 10) 1, sells, []⟩
  else
    ⟨ticker, .HOLD, 0, [], buys ++ sells⟩

/-! ## `src/backtest/strategies.py` (Follow-All) -/

/-- `FollowAllStrategy.__init__` state, with its source defaults. -/
structure FollowAllStrategy where
  min_trade_value : Option ℚ := none
  exclude_sales : Bool := true
deriving DecidableEq

/-- Python truthiness of a nullable float: `None` and `0.0` are falsy. -/
def qTruthy : Option ℚ → Bool
  | none => false
  | some q => q != 0

/-- `trade.transaction_type.lower() in ['sale', 'sell']`. -/
def isSaleType (t : CongressionalTrade) : Bool :=
  t.transaction_type.toLower == "sale" || t.transaction_type.toLower == "sell"

/-- `FollowAllStrategy.filter_trades(trades)`: the append-unless-`continue`
loop, as a filter.  Note the source gates the minimum-value check on the
truthiness of both `self.min_trade_value` and `trade.estimated_amount`, and
drops falsy (empty) tickers. -/
def FollowAllStrategy.filter_trades (s : FollowAllStrategy)
    (trades : List CongressionalTrade) : List CongressionalTrade :=
  trades.filter fun trade =>
    !(s.exclude_sales && isSaleType trade)
    && !(qTruthy s.min_trade_value && qTruthy trade.estimated_amount
         && decide (trade.estimated_amount.getD 0 < s.min_trade_value.getD 0))
    && (trade.ticker != "" && decide (trade.ticker.length ≤ 5))

/-- `FollowAllStrategy.get_position_size(trade)`: constant 1%. -/
def FollowAllStrategy.get_position_size (_s : FollowAllStrategy)
    (_trade : CongressionalTrade) : ℚ := 0.01

/-! ## `src/backtest/engine.py` (`_simulate_trade`) -/

/-- The `BacktestResult` dataclass. -/
structure BacktestResult where
  ticker : String
  politician_name : String
  transaction_date : ℤ
  disclosure_date : ℤ
  entry_date : ℤ
  exit_date : ℤ
  entry_price : ℚ
  exit_price : ℚ
  return_pct : ℚ
  holding_period : ℕ
  estimated_amount : Option ℚ
deriving DecidableEq

/-- `BacktestEngine._simulate_trade(trade, holding_period)`.  `getPrice`
stands for `self._get_price` (the cached yfinance oracle: `None` =
unavailable, and lookup exceptions surface as `None` results); `today` is
`datetime.now().date()` as a day number. -/
def simulate_trade (getPrice : String → ℤ → Option ℚ) (today : ℤ)
    (trade : CongressionalTrade) (holding_period : ℕ) : Option BacktestResult :=
  let entry_date := trade.disclosure_date
  let exit_date := entry_date + (holding_period : ℤ)
  if today < exit_date then none
  else
    match getPrice trade.ticker entry_date, getPrice trade.ticker exit_date with
    | some entry_price, some exit_price =>
        some ⟨trade.ticker, trade.politician_name, trade.transaction_date,
              trade.disclosure_date, entry_date, exit_date, entry_price, exit_price,
              (exit_price - entry_price) / entry_price * 100, holding_period,
              trade.estimated_amount⟩
    | _, _ => none

/-! ## Helper lemmas -/

/-- A nonempty list of strictly negative rationals has a strictly negative
sum. -/
lemma sum_neg_of_forall_neg (l : List ℚ) (hne : l ≠ []) (h : ∀ x ∈ l, x < 0) :
    l.sum < 0 := by
  induction l with
  | nil => exact absurd rfl hne
  | cons x xs ih =>
    rcases eq_or_ne xs [] with hxs | hxs
    · subst hxs
      simpa using h x (List.mem_cons_self x [])
    · have hx : x < 0 := h x (List.mem_cons_self x xs)
      have hxs' : xs.sum < 0 := ih hxs fun y hy => h y (List.mem_cons_of_mem x hy)
      simp only [List.sum_cons]
      linarith

/-- Mean of a constant list. -/
lemma qmean_const (l : List ℚ) (c : ℚ) (hne : l ≠ []) (h : ∀ x ∈ l, x = c) :
    qmean l = c := by
  have hsum : l.sum = l.length • c := List.sum_eq_card_nsmul l c h
  have hlen : (l.length : ℚ) ≠ 0 := by
    simpa using List.length_pos.mpr hne |>.ne'
  rw [qmean, hsum, nsmul_eq_mul, mul_comm, mul_div_assoc, div_self hlen, mul_one]

/-- Sample variance of a constant list is zero. -/
lemma sampleVar_const (l : List ℚ) (c : ℚ) (hne : l ≠ []) (h : ∀ x ∈ l, x = c) :
    sampleVar l = 0 := by
  have hmean := qmean_const l c hne h
  have hzero : (l.map (fun x => (x - qmean l) ^ 2)).sum = 0 := by
    apply List.sum_eq_zero
    intro y hy
    rcases List.mem_map.mp hy with ⟨x, hx, rfl⟩
    rw [h x hx, hmean, sub_self, zero_pow two_ne_zero]
  rw [sampleVar, hzero, zero_div]

/-! ## Claims about the metrics calculator -/

/-- **C1 (counterexample).** `calculate_metrics` on a single zero-return
outcome yields the `+∞` sentinel although there is no winning outcome, and on
the empty list the `profit_factor` key is absent rather than `0` — refuting
the claim's "exactly when … at least one winning outcome" and its empty-list
clause. -/
theorem profit_factor_claim_counterexample :
    (calculate_metrics [some 0]).profit_factor = some ProfitFactor.posInf
    ∧ (([some (0 : ℚ)].filterMap id).filter (fun r => 0 < r)) = []
    ∧ (calculate_metrics []).profit_factor = none :=
  ⟨by decide, by decide, by decide⟩

/-- **C1 (amended).** `profit_factor` is the `+∞` sentinel exactly when there
are zero losing outcomes and at least one outcome with a non-null return
(winning or not); when there are no such returns the `profit_factor` key is
absent from the report; otherwise it equals
`sum(positive returns) / abs(sum(negative returns))`. -/
theorem profit_factor_characterization (results : List (Option ℚ)) :
    (calculate_metrics results).profit_factor =
      (if (results.filterMap id).isEmpty then none
       else if ((results.filterMap id).filter (fun r => r < 0)).isEmpty then
         some ProfitFactor.posInf
       else
         some (ProfitFactor.finite
           (((results.filterMap id).filter (fun r => 0 < r)).sum /
             |((results.filterMap id).filter (fun r => r < 0)).sum|))) := by
  by_cases h0 : results.isEmpty
  · have : results = [] := List.isEmpty_iff.mp h0
    subst this
    simp [calculate_metrics]
  · by_cases h1 : (results.filterMap id).isEmpty
    · simp [calculate_metrics, h0, h1]
    · have hnegs :
        (0 < |((results.filterMap id).filter (fun r => r < 0)).sum|)
          ↔ ¬((results.filterMap id).filter (fun r => r < 0)).isEmpty := by
        constructor
        · intro habs hempty
          rw [List.isEmpty_iff.mp hempty] at habs
          simp at habs
        · intro hne
          have hlt : ((results.filterMap id).filter (fun r => r < 0)).sum < 0 := by
            apply sum_neg_of_forall_neg _ (by simpa [List.isEmpty_iff] using hne)
            intro x hx
            exact of_decide_eq_true (List.mem_filter.mp hx).2
          exact abs_pos.mpr hlt.ne
      by_cases h2 : ((results.filterMap id).filter (fun r => r < 0)).isEmpty
      · have : ¬(0 < |((results.filterMap id).filter (fun r => r < 0)).sum|) := by
          rw [hnegs]; exact not_not_intro h2
        simp [calculate_metrics, h0, h1, qsum, this, h2]
      · have : 0 < |((results.filterMap id).filter (fun r => r < 0)).sum| :=
          hnegs.mpr h2
        simp [calculate_metrics, h0, h1, qsum, this, h2]

/-- **C2 (counterexample).** On the empty result list the report is missing
the `profit_factor`, `avg_win`, `avg_loss`, `total_wins` and `total_losses`
keys, refuting "every field present and zero". -/
theorem metrics_empty_missing_fields :
    (calculate_metrics []).profit_factor = none
    ∧ (calculate_metrics []).avg_win = none
    ∧ (calculate_metrics []).avg_loss = none
    ∧ (calculate_metrics []).total_wins = none
    ∧ (calculate_metrics []).total_losses = none :=
  ⟨by decide, by decide, by decide, by decide, by decide⟩

/-- **C2 (amended).** `calculate_metrics` applied to the empty result list
returns, without raising or dividing by zero (the embedding is total), the
report whose eight present fields (`total_trades`, `total_return`,
`avg_return`, `win_rate`, `sharpe_ratio`, `max_drawdown`, `best_trade`,
`worst_trade`) are all zero; the five remaining keys are absent. -/
theorem calculate_metrics_empty :
    calculate_metrics [] =
      { total_trades := 0, total_return := 0, avg_return := 0, win_rate := 0,
        sharpe_ratio := 0, max_drawdown := 0, best_trade := 0, worst_trade := 0,
        profit_factor := none, avg_win := none, avg_loss := none,
        total_wins := none, total_losses := none } := rfl

/-- **C10.** When the sample standard deviation is zero (all returns equal,
two or more samples), the Sharpe division is guarded and the reported
`sharpe_ratio` is `0`, not the `mean/stdev` formula. -/
theorem sharpe_ratio_zero_when_constant (rs : List ℚ) (c : ℚ)
    (hlen : 2 ≤ rs.length) (hconst : ∀ x ∈ rs, x = c) :
    (calculate_metrics (rs.map some)).sharpe_ratio = 0 := by
  have hne : rs ≠ [] := by
    intro h; subst h; simp at hlen
  have hfm : (rs.map some).filterMap id = rs := by
    simp [List.filterMap_map, Function.comp]
  have hmapne : ¬(rs.map some).isEmpty := by
    simp [List.isEmpty_iff, hne]
  have hvar : sampleVar rs = 0 := sampleVar_const rs c hne hconst
  have hsharpe : sharpe_of rs = 0 := by
    rw [sharpe_of, if_pos (by omega), hvar]
    norm_num
  simp only [calculate_metrics, hfm]
  rw [if_neg hmapne, if_neg (by simpa [List.isEmpty_iff] using hne)]
  simpa using hsharpe

/-- Witness for C10 at the concrete constant list `[1, 1]`. -/
theorem sharpe_ratio_zero_when_constant_witness :
    2 ≤ ([(1 : ℚ), 1]).length
    ∧ (calculate_metrics ([(1 : ℚ), 1].map some)).sharpe_ratio = 0 :=
  ⟨by decide, sharpe_ratio_zero_when_constant [1, 1] 1 (by decide) (by decide)⟩

/-! ## Claims about the risk manager -/

/-- **C3 (counterexample).** The `RiskConfig` dataclass constructor accepts a
threshold pair violating `profit_target_pct > 0 > stop_loss_pct` without any
error: construction does not fail fast. -/
theorem risk_config_no_validation_counterexample :
    RiskConfig.make (-1) (1/2) 0.05 10 1000
      = Except.ok ⟨-1, 1/2, 0.05, 10, 1000⟩
    ∧ ¬((0 : ℚ) < -1 ∧ (1/2 : ℚ) < 0) :=
  ⟨rfl, by norm_num⟩

/-- **C3 (amended).** Constructing a `RiskConfig` (or a `RiskManager` from
one) performs no threshold validation: construction succeeds for every
threshold pair, valid or invalid, storing the fields verbatim; the invariant
`profit_target_pct > 0 > stop_loss_pct` is documented but not enforced at
construction. -/
theorem risk_config_construction_total (pt sl mps : ℚ) (mp : ℕ) (mpv : ℚ) :
    RiskConfig.make pt sl mps mp mpv = Except.ok ⟨pt, sl, mps, mp, mpv⟩
    ∧ RiskManager.make ⟨pt, sl, mps, mp, mpv⟩ = Except.ok ⟨pt, sl, mps, mp, mpv⟩ :=
  ⟨rfl, rfl⟩

/-- **C4.** Exit evaluation computes
`profit_pct = (current − entry)/entry` and exits with the profit-target
reason exactly when `profit_pct ≥ profit_threshold` (taking precedence), with
the stop-loss reason exactly when `profit_pct ≤ stop_loss` and the target was
not hit, and stays open otherwise; with entry $100, target 0.20 and stop
−0.10 this means: exit on profit iff price ≥ 120, exit on stop loss iff
price ≤ 90, no exit iff 90 < price < 120. -/
theorem should_exit_position_spec (config : RiskConfig) (position : Position)
    (current_price : ℚ) (hentry : 0 < position.average_entry_price) :
    ((should_exit_position config position current_price
        = (true, some ExitReason.profitTarget)
      ↔ config.profit_threshold ≤
          (current_price - position.average_entry_price) / position.average_entry_price)
     ∧ (should_exit_position config position current_price
          = (true, some ExitReason.stopLoss)
        ↔ (current_price - position.average_entry_price) / position.average_entry_price
              ≤ config.stop_loss
          ∧ (current_price - position.average_entry_price) / position.average_entry_price
              < config.profit_threshold)
     ∧ (should_exit_position config position current_price = (false, none)
        ↔ config.stop_loss <
            (current_price - position.average_entry_price) / position.average_entry_price
          ∧ (current_price - position.average_entry_price) / position.average_entry_price
              < config.profit_threshold))
    ∧ (position.average_entry_price = 100 → config.profit_threshold = 0.20 →
       config.stop_loss = -0.10 →
       ((should_exit_position config position current_price
           = (true, some ExitReason.profitTarget) ↔ 120 ≤ current_price)
        ∧ (should_exit_position config position current_price
             = (true, some ExitReason.stopLoss) ↔ current_price ≤ 90)
        ∧ (should_exit_position config position current_price = (false, none)
           ↔ 90 < current_price ∧ current_price < 120))) := by
  have hmain :
      (should_exit_position config position current_price
          = (true, some ExitReason.profitTarget)
        ↔ config.profit_threshold ≤
            (current_price - position.average_entry_price) / position.average_entry_price)
      ∧ (should_exit_position config position current_price
            = (true, some ExitReason.stopLoss)
          ↔ (current_price - position.average_entry_price) / position.average_entry_price
                ≤ config.stop_loss
            ∧ (current_price - position.average_entry_price) / position.average_entry_price
                < config.profit_threshold)
      ∧ (should_exit_position config position current_price = (false, none)
          ↔ config.stop_loss <
              (current_price - position.average_entry_price) / position.average_entry_price
            ∧ (current_price - position.average_entry_price) / position.average_entry_price
                < config.profit_threshold) := by
    refine ⟨?_, ?_, ?_⟩ <;>
      · simp only [should_exit_position]
        split_ifs with h1 h2 <;> simp [Prod.ext_iff] <;>
          first
            | linarith
            | (intro h; linarith)
            | (refine ⟨by linarith, by linarith⟩)
  refine ⟨hmain, ?_⟩
  intro h100 hpt hsl
  have hdiv : ∀ a : ℚ,
      ((current_price - position.average_entry_price) / position.average_entry_price ≤ a
        ↔ current_price ≤ a * 100 + 100)
      ∧ (a ≤ (current_price - position.average_entry_price) / position.average_entry_price
        ↔ a * 100 + 100 ≤ current_price) := by
    intro a
    rw [h100]
    constructor
    · rw [div_le_iff₀ (by norm_num : (0 : ℚ) < 100)]
      constructor <;> intro <;> linarith
    · rw [le_div_iff₀ (by norm_num : (0 : ℚ) < 100)]
      constructor <;> intro <;> linarith
  refine ⟨?_, ?_, ?_⟩
  · rw [hmain.1, hpt, (hdiv 0.20).2]
    norm_num
  · rw [hmain.2.1, hsl]
    constructor
    · rintro ⟨h, _⟩
      have := (hdiv (-0.10)).1.mp h
      linarith
    · intro h
      refine ⟨(hdiv (-0.10)).1.mpr (by linarith), ?_⟩
      have h20 : ¬(0.20 ≤
          (current_price - position.average_entry_price) / position.average_entry_price) := by
        rw [(hdiv 0.20).2]
        norm_num
        linarith
      rw [hpt]
      exact lt_of_not_le h20
  · rw [hmain.2.2, hpt, hsl]
    constructor
    · rintro ⟨h1, h2⟩
      have ha := (hdiv (-0.10)).1
      have hb := (hdiv 0.20).2
      constructor
      · by_contra hc
        push_neg at hc
        exact absurd (ha.mpr (by linarith)) (not_le.mpr h1)
      · by_contra hc
        push_neg at hc
        exact absurd (hb.mpr (by linarith)) (not_le.mpr h2)
    · rintro ⟨h1, h2⟩
      constructor
      · by_contra hc
        push_neg at hc
        have := (hdiv (-0.10)).1.mp hc
        linarith
      · by_contra hc
        push_neg at hc
        have := (hdiv 0.20).2.mp hc
        linarith

/-- For nonnegative arguments Python `int()` truncation is the floor. -/
lemma pyInt_eq_floor_of_nonneg (q : ℚ) (h : 0 ≤ q) : pyInt q = ⌊q⌋ := by
  rw [pyInt, if_pos h]

/-- Truncation and floor fall below 1 together. -/
lemma pyInt_lt_one_iff (q : ℚ) : pyInt q < 1 ↔ ⌊q⌋ < 1 := by
  by_cases h : 0 ≤ q
  · rw [pyInt_eq_floor_of_nonneg q h]
  · push_neg at h
    have hfl : ⌊q⌋ < 1 := lt_of_le_of_lt (Int.floor_nonpos h.le) one_pos
    have hneg : 0 ≤ ⌊-q⌋ := Int.floor_nonneg.mpr (neg_nonneg.mpr h.le)
    rw [pyInt, if_neg (not_le.mpr h)]
    constructor
    · intro _; exact hfl
    · intro _; omega

/-- **C5.** Position sizing returns 0 shares when the open-position cap is
reached, otherwise 0 when `capital × max_position_size` is below the minimum
position value, otherwise `floor(max_dollars / price)` with 0 when that floor
is below 1; and concretely: default config ($100k capital, $100 price, 5%
cap, $1k minimum) yields 50 shares, while a full position book yields 0
regardless of capital. -/
theorem calculate_position_size_spec (config : RiskConfig)
    (account_balance stock_price : ℚ) (count : ℕ) (hprice : 0 < stock_price) :
    (calculate_position_size config account_balance stock_price count =
      if config.max_positions ≤ count then 0
      else if account_balance * config.max_position_size < config.min_position_value then 0
      else if ⌊account_balance * config.max_position_size / stock_price⌋ < 1 then 0
      else ⌊account_balance * config.max_position_size / stock_price⌋)
    ∧ calculate_position_size {} 100000 100 0 = 50
    ∧ ∀ balance : ℚ,
        calculate_position_size {} balance 100 ({} : RiskConfig).max_positions = 0 := by
  refine ⟨?_, by norm_num [calculate_position_size, pyInt], ?_⟩
  · simp only [calculate_position_size]
    by_cases h1 : config.max_positions ≤ count
    · rw [if_pos h1, if_pos h1]
    · rw [if_neg h1, if_neg h1]
      by_cases h2 : account_balance * config.max_position_size < config.min_position_value
      · rw [if_pos h2, if_pos h2]
      · rw [if_neg h2, if_neg h2]
        by_cases h4 : ⌊account_balance * config.max_position_size / stock_price⌋ < 1
        · rw [if_pos ((pyInt_lt_one_iff _).mpr h4), if_pos h4]
        · rw [if_neg (fun hc => h4 ((pyInt_lt_one_iff _).mp hc)), if_neg h4]
          have hone : (1 : ℤ) ≤ ⌊account_balance * config.max_position_size / stock_price⌋ :=
            not_lt.mp h4
          have hq : (0 : ℚ) ≤ account_balance * config.max_position_size / stock_price :=
            le_trans (by norm_num) ((Int.le_floor).mp hone)
          exact pyInt_eq_floor_of_nonneg _ hq
  · intro balance
    simp [calculate_position_size]

/-- Witness for C5 at the default config with $100k capital, $100 price and
no open positions. -/
theorem calculate_position_size_spec_witness :
    0 < (100 : ℚ) ∧ calculate_position_size {} 100000 100 0 = 50 :=
  ⟨by norm_num, (calculate_position_size_spec {} 100000 100 0 (by norm_num)).2.1⟩

/-- Witness for C4: with the default config (target 0.20, stop −0.10) and
entry $100, price $125 exits on the profit target. -/
theorem should_exit_position_spec_witness :
    0 < (100 : ℚ)
    ∧ should_exit_position {} ⟨"AAPL", 100, 100⟩ 125
        = (true, some ExitReason.profitTarget) :=
  ⟨by norm_num, by
    have h := should_exit_position_spec {} ⟨"AAPL", 100, 100⟩ 125 (by norm_num)
    exact (h.2 rfl rfl rfl).1.mpr (by norm_num)⟩

/-! ## Claims about signal fusion -/

/-- A $100k purchase disclosure (concrete input for C6/C7). -/
def trade100k : CongressionalTrade := ⟨"NVDA", "Rep A", "Purchase", some 100000, 10, 45⟩

/-- A $10k sale disclosure (concrete input for C6). -/
def trade10k : CongressionalTrade := ⟨"NVDA", "Rep B", "Sale", some 10000, 12, 47⟩

/-- **C6.** With nonnegative dollar weights and multiplier ≥ 1 (default 1.5),
dollar-weighted fusion signals BUY exactly when
`buy_weight > sell_weight × mult` — with confidence
`buy_weight/(buy_weight+sell_weight)` — symmetrically SELL, and otherwise
HOLD with confidence 0; concretely $100k of buys against $10k of sells gives
BUY with confidence 100000/110000. -/
theorem analyze_dollar_weighted_spec (mult : ℚ) (buys sells : List CongressionalTrade)
    (ticker : String) (hmult : 1 ≤ mult)
    (hb : 0 ≤ dollarWeight buys) (hs : 0 ≤ dollarWeight sells) :
    (((analyze_dollar_weighted mult buys sells ticker).signal = Signal.BUY
        ↔ dollarWeight sells * mult < dollarWeight buys)
      ∧ ((analyze_dollar_weighted mult buys sells ticker).signal = Signal.SELL
        ↔ dollarWeight buys * mult < dollarWeight sells)
      ∧ (dollarWeight sells * mult < dollarWeight buys →
          (analyze_dollar_weighted mult buys sells ticker).confidence
            = dollarWeight buys / (dollarWeight buys + dollarWeight sells))
      ∧ (dollarWeight buys * mult < dollarWeight sells →
          (analyze_dollar_weighted mult buys sells ticker).confidence
            = dollarWeight sells / (dollarWeight buys + dollarWeight sells))
      ∧ ((analyze_dollar_weighted mult buys sells ticker).signal = Signal.HOLD →
          (analyze_dollar_weighted mult buys sells ticker).confidence = 0))
    ∧ (analyze_dollar_weighted (3/2) [trade100k] [trade10k] "NVDA").signal = Signal.BUY
    ∧ (analyze_dollar_weighted (3/2) [trade100k] [trade10k] "NVDA").confidence
        = 100000 / 110000 := by
  refine ⟨?_,
    by norm_num [analyze_dollar_weighted, dollarWeight, amountOf, trade100k, trade10k],
    by norm_num [analyze_dollar_weighted, dollarWeight, amountOf, trade100k, trade10k,
                 min_def]⟩
  by_cases h0 : dollarWeight buys + dollarWeight sells = 0
  · have hB0 : dollarWeight buys = 0 := by linarith
    have hS0 : dollarWeight sells = 0 := by linarith
    simp [analyze_dollar_weighted, h0, hB0, hS0]
  · by_cases hbuy : dollarWeight sells * mult < dollarWeight buys
    · have hBpos : 0 < dollarWeight buys :=
        lt_of_le_of_lt (mul_nonneg hs (le_trans zero_le_one hmult)) hbuy
      have htot : 0 < dollarWeight buys + dollarWeight sells := by linarith
      have hnotsell : ¬dollarWeight buys * mult < dollarWeight sells := by
        have h1 : dollarWeight sells ≤ dollarWeight sells * mult :=
          le_mul_of_one_le_right hs hmult
        have h2 : dollarWeight buys ≤ dollarWeight buys * mult :=
          le_mul_of_one_le_right hb hmult
        intro hc
        linarith
      have hconf : min (dollarWeight buys / (dollarWeight buys + dollarWeight sells)) 1
          = dollarWeight buys / (dollarWeight buys + dollarWeight sells) := by
        apply min_eq_left
        rw [div_le_one htot]
        linarith
      simp [analyze_dollar_weighted, h0, hbuy, hnotsell, hconf]
    · by_cases hsell : dollarWeight buys * mult < dollarWeight sells
      · have hSpos : 0 < dollarWeight sells :=
          lt_of_le_of_lt (mul_nonneg hb (le_trans zero_le_one hmult)) hsell
        have htot : 0 < dollarWeight buys + dollarWeight sells := by linarith
        have hconf : min (dollarWeight sells / (dollarWeight buys + dollarWeight sells)) 1
            = dollarWeight sells / (dollarWeight buys + dollarWeight sells) := by
          apply min_eq_left
          rw [div_le_one htot]
          linarith
        simp [analyze_dollar_weighted, h0, hbuy, hsell, hconf]
      · simp [analyze_dollar_weighted, h0, hbuy, hsell]

/-- Witness for C6 at the concrete $100k-buy/$10k-sell input with the default
multiplier 1.5. -/
theorem analyze_dollar_weighted_spec_witness :
    (analyze_dollar_weighted (3/2) [trade100k] [trade10k] "NVDA").signal = Signal.BUY
    ∧ (analyze_dollar_weighted (3/2) [trade100k] [trade10k] "NVDA").confidence
        = 100000 / 110000 :=
  ⟨(analyze_dollar_weighted_spec (3/2) [trade100k] [trade10k] "NVDA"
      (by norm_num) (by norm_num [dollarWeight, amountOf, trade100k])
      (by norm_num [dollarWeight, amountOf, trade10k])).2.1,
   (analyze_dollar_weighted_spec (3/2) [trade100k] [trade10k] "NVDA"
      (by norm_num) (by norm_num [dollarWeight, amountOf, trade100k])
      (by norm_num [dollarWeight, amountOf, trade10k])).2.2⟩

/-- **C7.** Unanimous-only fusion signals BUY exactly when buys exist and
sells do not, with confidence `min(buy_count/10, 1)`; symmetrically SELL;
any mix — or no trades at all — yields HOLD with confidence 0; concretely 3
buys and 0 sells give BUY with confidence 0.3 and 12 buys give confidence
capped at 1. -/
theorem analyze_unanimous_only_spec (buys sells : List CongressionalTrade)
    (ticker : String) :
    (buys ≠ [] → sells = [] →
      analyze_unanimous_only buys sells ticker
        = ⟨ticker, Signal.BUY, min ((buys.length : ℚ) / 10) 1, buys, []⟩)
    ∧ (sells ≠ [] → buys = [] →
      analyze_unanimous_only buys sells ticker
        = ⟨ticker, Signal.SELL, min ((sells.length : ℚ) / 10) 1, sells, []⟩)
    ∧ ((analyze_unanimous_only buys sells ticker).signal = Signal.HOLD
        ↔ (buys = [] ∧ sells = []) ∨ (buys ≠ [] ∧ sells ≠ []))
    ∧ ((analyze_unanimous_only buys sells ticker).signal = Signal.HOLD →
        (analyze_unanimous_only buys sells ticker).confidence = 0)
    ∧ (buys.length = 3 → sells = [] →
        (analyze_unanimous_only buys sells ticker).signal = Signal.BUY
        ∧ (analyze_unanimous_only buys sells ticker).confidence = 3/10)
    ∧ (buys.length = 12 → sells = [] →
        (analyze_unanimous_only buys sells ticker).confidence = 1) := by
  rcases eq_or_ne buys [] with hb | hb <;> rcases eq_or_ne sells [] with hs | hs
  · subst hb; subst hs
    simp [analyze_unanimous_only]
  · subst hb
    simp [analyze_unanimous_only, List.isEmpty_iff, hs]
  · subst hs
    refine ⟨fun _ _ => ?_, fun h => absurd rfl h, ?_, ?_, fun h3 _ => ?_, fun h12 _ => ?_⟩
    · simp [analyze_unanimous_only, List.isEmpty_iff, hb]
    · simp [analyze_unanimous_only, List.isEmpty_iff, hb]
    · simp [analyze_unanimous_only, List.isEmpty_iff, hb]
    · constructor
      · simp [analyze_unanimous_only, List.isEmpty_iff, hb]
      · simp [analyze_unanimous_only, List.isEmpty_iff, hb, h3]
        norm_num
    · simp [analyze_unanimous_only, List.isEmpty_iff, hb, h12]
      norm_num
  · refine ⟨fun _ hc => absurd hc hs, fun _ hc => absurd hc hb, ?_, ?_,
      fun _ hc => absurd hc hs, fun _ hc => absurd hc hs⟩
    · simp [analyze_unanimous_only, List.isEmpty_iff, hb, hs]
    · simp [analyze_unanimous_only, List.isEmpty_iff, hb, hs]

/-- Witness for C7: 3 unanimous buys give BUY with confidence 0.3. -/
theorem analyze_unanimous_only_spec_witness :
    (analyze_unanimous_only [trade100k, trade100k, trade100k] [] "NVDA").signal
        = Signal.BUY
    ∧ (analyze_unanimous_only [trade100k, trade100k, trade100k] [] "NVDA").confidence
        = 3/10 :=
  (analyze_unanimous_only_spec [trade100k, trade100k, trade100k] [] "NVDA").2.2.2.2.1
    (by decide) rfl

/-! ## Claims about the simulation engine -/

/-- A price oracle that always resolves to $10 (concrete input for C8). -/
def constOracle : String → ℤ → Option ℚ := fun _ _ => some 10

/-- **C8.** Every `BacktestResult` the engine emits enters at the disclosure
date and exits exactly `holding_period` days later, never after "today"; a
(trade, holding-period) pair whose exit date falls after today yields no
outcome at all. -/
theorem simulate_trade_dates (getPrice : String → ℤ → Option ℚ) (today : ℤ)
    (trade : CongressionalTrade) (holding_period : ℕ) :
    (∀ r, simulate_trade getPrice today trade holding_period = some r →
        r.entry_date = trade.disclosure_date
        ∧ r.exit_date = r.entry_date + (holding_period : ℤ)
        ∧ r.exit_date ≤ today)
    ∧ (today < trade.disclosure_date + (holding_period : ℤ) →
        simulate_trade getPrice today trade holding_period = none) := by
  constructor
  · intro r hr
    simp only [simulate_trade] at hr
    by_cases htoday : today < trade.disclosure_date + (holding_period : ℤ)
    · rw [if_pos htoday] at hr
      exact absurd hr (by simp)
    · rw [if_neg htoday] at hr
      push_neg at htoday
      cases hentry : getPrice trade.ticker trade.disclosure_date with
      | none => rw [hentry] at hr; exact absurd hr (by simp)
      | some entry_price =>
        cases hexit : getPrice trade.ticker (trade.disclosure_date + (holding_period : ℤ)) with
        | none => rw [hentry, hexit] at hr; exact absurd hr (by simp)
        | some exit_price =>
          rw [hentry, hexit] at hr
          cases Option.some_injective _ hr
          exact ⟨rfl, rfl, htoday⟩
  · intro h
    simp only [simulate_trade]
    rw [if_pos h]

/-- Witness for C8: a 60-day hold disclosed on day 45 cannot be evaluated on
day 90 and is discarded. -/
theorem simulate_trade_dates_witness :
    simulate_trade constOracle 90 trade100k 60 = none
    ∧ (90 : ℤ) < trade100k.disclosure_date + (60 : ℤ) :=
  ⟨(simulate_trade_dates constOracle 90 trade100k 60).2 (by decide), by decide⟩

/-! ## Claims about the Follow-All strategy -/

/-- The keep-predicate exactly as the claim words it: not a sale (when sale
exclusion is configured), ticker of length at most 5, and — whenever the
optional minimum filter is set — an estimated amount meeting that minimum.
Stated from the claim for comparison against the source filter. -/
def followAllClaimKeep (s : FollowAllStrategy) (t : CongressionalTrade) : Bool :=
  !(s.exclude_sales && isSaleType t)
  && (match s.min_trade_value with
      | none => true
      | some m =>
        match t.estimated_amount with
        | some a => decide (m ≤ a)
        | none => false)
  && decide (t.ticker.length ≤ 5)

/-- The keep-predicate the source actually implements: the minimum-value
check is skipped whenever the configured minimum or the trade's amount is
falsy (`None` or `0`), and empty tickers are dropped. -/
def followAllAmendedKeep (s : FollowAllStrategy) (t : CongressionalTrade) : Bool :=
  !(s.exclude_sales && isSaleType t)
  && (!(qTruthy s.min_trade_value && qTruthy t.estimated_amount)
      || decide (s.min_trade_value.getD 0 ≤ t.estimated_amount.getD 0))
  && (t.ticker != "" && decide (t.ticker.length ≤ 5))

/-- A Follow-All configuration with a $1,000 minimum and sale exclusion off
(concrete input for C9; the divergence is in the minimum-value check and does
not involve the sale filter). -/
def minFilterStrategy : FollowAllStrategy := ⟨some 1000, false⟩

/-- A purchase whose `estimated_amount` is the falsy `0.0` (concrete input
for C9). -/
def zeroAmountTrade : CongressionalTrade := ⟨"A", "Rep C", "Purchase", some 0, 1, 2⟩

/-- **C9 (counterexample).** With the minimum-value filter set to $1,000, a
purchase with `estimated_amount = 0.0` does not meet the minimum, yet the
source keeps it: Python truthiness (`0.0` is falsy) skips the check. -/
theorem follow_all_filter_counterexample :
    FollowAllStrategy.filter_trades minFilterStrategy [zeroAmountTrade]
      = [zeroAmountTrade]
    ∧ followAllClaimKeep minFilterStrategy zeroAmountTrade = false := by
  constructor
  · decide
  · decide

/-- **C9 (amended).** Follow-All's filter keeps exactly the trades that are
not sales (when sale exclusion is configured, the default), have a
*non-empty* ticker of length at most 5, and — when the minimum-value filter
is set to a nonzero value *and* the trade's estimated amount is non-null and
nonzero — meet that minimum (trades with null or zero amounts bypass the
minimum check); its sizing function returns the fixed fraction 0.01 for
every trade. -/
theorem follow_all_filter_amended (s : FollowAllStrategy)
    (trades : List CongressionalTrade) :
    s.filter_trades trades = trades.filter (followAllAmendedKeep s)
    ∧ ∀ t, s.get_position_size t = 1/100 := by
  constructor
  · simp only [FollowAllStrategy.filter_trades]
    apply List.filter_congr
    intro t _
    by_cases hm : t.estimated_amount.getD 0 < s.min_trade_value.getD 0
    · simp [followAllAmendedKeep, hm, not_le.mpr hm]
    · simp [followAllAmendedKeep, hm, not_lt.mp hm]
  · intro t
    norm_num [FollowAllStrategy.get_position_size]
